import Mathlib

/-!
# Verification of the data-expectation validation service

A shallow embedding, in Lean 4, of the parts of the `data-expectation`
repository that the specification's claims are about:

* `server/validators/rule_loader.py` — layered rule merging, named rule-set
  lookup, recursive include resolution with cycle detection;
* `server/validators/instrument_validator.py` — comma-separated column
  expansion;
* `server/services/validation_result_formatter.py` — report totals;
* `server/loaders/csv_loader.py` — CSV load errors and caching;
* `server/services/instrument_service.py` — all-exchange scans;
* `generator/src/api/api_client.py`, `generator/src/core/validator.py`,
  `generator/src/cli/cli.py`, `generator/src/database/database_repository.py`
  — the batch orchestrator, its HTTP client, CLI exit codes and persistence.

Python dictionaries parsed from YAML are modelled as association lists,
Python exceptions as `Except` values, and the recursion of include
resolution is made total with a fuel parameter (fuel exhaustion plays the
role of Python's `RecursionError`, which is *not* a `ValueError` and would
propagate unwrapped).
-/

namespace DataExpectation

/-- A validation rule, mirroring the YAML rule dictionaries
`{type, column, ...params}`.  `column`/`typ` are `none` when the
corresponding key is absent from the dictionary; every other field of the
dictionary is kept opaquely in `rest` (its contents never influence the
control flow of the embedded functions). -/
structure Rule where
  column : Option String
  typ : Option String
  rest : List (String × String)
deriving DecidableEq, Repr

/-- Python truthiness of an optional string argument (`if product_type:`):
`None` and the empty string are falsy. -/
def truthy : Option String → Bool
  | none => false
  | some s => !(s == "")

/-- Python `str.lower()` (structurally recursive over the characters, so
that concrete instances evaluate). -/
def pyLower (s : String) : String := ⟨s.data.map Char.toLower⟩

/-- Python `str.strip()`: drop leading and trailing whitespace. -/
def pyStrip (s : String) : String :=
  ⟨((s.data.dropWhile Char.isWhitespace).reverse.dropWhile Char.isWhitespace).reverse⟩

/-- Lexicographic order on code points, as Python compares strings. -/
def charListLt : List Char → List Char → Bool
  | [], [] => false
  | [], _ :: _ => true
  | _ :: _, [] => false
  | c :: cs, d :: ds =>
    if c.val < d.val then true
    else if d.val < c.val then false
    else charListLt cs ds

/-- `s <= t` on Python strings. -/
def pyStrLe (s t : String) : Bool := charListLt s.data t.data || s.data == t.data

/-- Insert into an ascending list (the step of a simple stable sort). -/
def insertAsc (x : String) : List String → List String
  | [] => [x]
  | y :: ys => if pyStrLe x y then x :: y :: ys else y :: insertAsc x ys

/-- Python `sorted` on strings (insertion sort — the result is the
ascending reordering, which is all the source relies on). -/
def pySorted (l : List String) : List String := l.foldr insertAsc []

/-- `RuleLoader._normalize_product_type`: lower-case, strip, and map the
aliases `stocks → stock`, `option → options`. -/
def normalizeProductType (productType : String) : String :=
  let normalized := pyStrip (pyLower productType)
  if normalized == "stocks" then "stock"
  else if normalized == "option" then "options"
  else normalized

/-! ## C4 — column expansion (`InstrumentValidator._expand_rules_with_multiple_columns`) -/

/-- An element of the rule list handed to the expectation compiler: either a
rule dictionary or some non-dictionary value (which the source passes through
unchanged). -/
inductive RuleItem
  | dict (r : Rule)
  | nonDict (tag : Nat)
deriving DecidableEq, Repr

/-- The loop body of
`InstrumentValidator._expand_rules_with_multiple_columns`: a non-dictionary
or column-less rule is appended unchanged; a `column` value containing a
comma (`',' in column`, i.e. `splitOn` yields more than one part) is split,
each part stripped, empty parts skipped, and one copy of the rule appended
per remaining part; a single column is appended as is. -/
def expandStep (expanded : List RuleItem) (item : RuleItem) : List RuleItem :=
  match item with
  | .nonDict t => expanded ++ [.nonDict t]
  | .dict r =>
    match r.column with
    | none => expanded ++ [.dict r]
    | some column =>
      if (column.splitOn ",").length > 1 then
        let columns := (column.splitOn ",").map pyStrip
        expanded ++ (columns.filter (fun c => !(c == ""))).map
          (fun c => RuleItem.dict { r with column := some c })
      else
        expanded ++ [.dict r]

/-- `InstrumentValidator._expand_rules_with_multiple_columns`: fold the
loop body over the rule list, starting from an empty output list. -/
def expandRulesWithMultipleColumns (rules : List RuleItem) : List RuleItem :=
  rules.foldl expandStep []

/-- The specification's description of the expansion of a single rule:
split `column` on `,`, trim, drop empties, emit one rule per column with
every other field copied; a rule with a single column or without a
`column` field passes through unchanged. -/
def expandOneSpec : RuleItem → List RuleItem
  | .nonDict t => [.nonDict t]
  | .dict r =>
    match r.column with
    | none => [.dict r]
    | some column =>
      if (column.splitOn ",").length > 1 then
        (((column.splitOn ",").map pyStrip).filter (fun c => !(c == ""))).map
          (fun c => RuleItem.dict { r with column := some c })
      else
        [.dict r]

/-! ## C5 — report totals (`ValidationResultFormatter.format_results`) -/

/-- A single expectation outcome as the formatter sees it: `success` is
`none` when the attribute is absent or `None` on the Python side. -/
structure GEResult where
  success : Option Bool
  column : String
  expectationType : String
deriving DecidableEq, Repr

/-- `ValidationResultFormatter.to_native_bool` (`None` becomes `False`). -/
def toNativeBool : Option Bool → Bool
  | none => false
  | some b => b

/-- The engine output handed to the formatter: the per-expectation results
plus the suite-level success flag. -/
structure EngineOutput where
  results : List GEResult
  success : Option Bool
deriving Repr

/-- The summary block of a formatted report
(`results.summary` in `format_results`). -/
structure ReportSummary where
  success : Bool
  total : Nat
  successful : Nat
  failed : Nat
deriving DecidableEq, Repr

/-- `ValidationResultFormatter.format_results` restricted to the counters
and flags the claim is about: `successful` counts results whose `success`
attribute is truthy, `failed` is the difference, and the overall `success`
flag is copied from the engine output's suite-level flag. -/
def formatResults (validationResults : EngineOutput) : ReportSummary :=
  let resultsList := validationResults.results
  let totalExpectations := resultsList.length
  let successfulExpectations :=
    (resultsList.filter (fun r => toNativeBool r.success)).length
  let failedExpectations := totalExpectations - successfulExpectations
  let overallSuccess := toNativeBool validationResults.success
  { success := overallSuccess
    total := totalExpectations
    successful := successfulExpectations
    failed := failedExpectations }

/-- Modelled from the spec: the suite-level `success` flag of the engine
output is produced by Great Expectations, which is external to this
repository; per the specification's data model (`success` ↔ every result
successful) it is the conjunction of the per-expectation successes. -/
def engineOutputOf (results : List GEResult) : EngineOutput :=
  { results := results
    success := some (results.all (fun r => toNativeBool r.success)) }

/-! ## Rule loader (`server/validators/rule_loader.py`)

The embedding covers the modular directory layout (the branch taken when
`base.yaml` exists, which is the layout all claims are about).  Each YAML
file is modelled by its parsed content: rule files by `List Rule` (with
`[]` for a missing or comments-only file, which the source also turns into
`[]`), name→rule-set mapping files by association lists (a missing, empty
or non-mapping file never contains a name, which the source skips the same
way), and the legacy per-name directories by association lists keyed by
file stem. -/

/-- One entry of a rule-set mapping document other than `include`: the
source keeps values that are lists (extending) or dictionaries containing a
`type` key (appending) and silently skips anything else. -/
inductive SetEntry
  | ruleList (rs : List Rule)
  | typedDict (r : Rule)
  | otherEntry
deriving DecidableEq, Repr

/-- The value of an `include` key: a list of names, a single name, or a
value of any other type (which matches neither `isinstance` branch in the
source and contributes nothing). -/
inductive IncludeSpec
  | many (names : List String)
  | single (name : String)
  | notListOrStr
deriving DecidableEq, Repr

/-- A named rule-set definition: a plain YAML list of rules, a mapping with
an `include` key plus its remaining entries in document order, or any other
document shape (which the source rejects with a `ValueError`). -/
inductive RuleSetDef
  | plain (rs : List Rule)
  | withInclude (inc : IncludeSpec) (entries : List (String × SetEntry))
  | invalidDoc
deriving DecidableEq, Repr

/-- The rules directory.  Association-list keys are the path components the
source computes before lookup: product folders are keyed by the
*normalized* product type and exchange folders by the *lowercased*
exchange code. -/
structure RulesEnv where
  /-- `base.yaml` (global base rules). -/
  base : List Rule
  /-- `exchanges/<ex>.yaml` (root exchange rules). -/
  rootExchange : List (String × List Rule)
  /-- `<product>/base.yaml`. -/
  productBase : List (String × List Rule)
  /-- `<product>/exchanges/<ex>/exchange.yaml` (new layout). -/
  productExchangeNew : List ((String × String) × List Rule)
  /-- `<product>/exchanges/<ex>.yaml` (old-layout fallback). -/
  productExchangeOld : List ((String × String) × List Rule)
  /-- `<product>/exchanges/<ex>/custom.yaml`. -/
  exchangeCustom : List ((String × String) × List (String × RuleSetDef))
  /-- `<product>/exchanges/<ex>/combined.yaml`. -/
  exchangeCombined : List ((String × String) × List (String × RuleSetDef))
  /-- `<product>/custom.yaml`. -/
  productCustom : List (String × List (String × RuleSetDef))
  /-- `<product>/combined.yaml`. -/
  productCombined : List (String × List (String × RuleSetDef))
  /-- Root `custom.yaml`. -/
  rootCustom : List (String × RuleSetDef)
  /-- Root `combined.yaml`. -/
  rootCombined : List (String × RuleSetDef)
  /-- Legacy `custom/<name>.yaml` files, keyed by stem. -/
  legacyCustom : List (String × RuleSetDef)
  /-- Legacy `custom/combined/<name>.yaml` files, keyed by stem. -/
  legacyCombined : List (String × RuleSetDef)

/-- `RuleLoader.load_base_rules` (modular branch). -/
def loadBaseRules (env : RulesEnv) : List Rule := env.base

/-- `RuleLoader.load_exchange_rules` (modular branch): looks up
`exchanges/<exchange.lower()>.yaml`, returning `[]` when absent. -/
def loadExchangeRules (env : RulesEnv) (exchange : String) : List Rule :=
  (env.rootExchange.lookup (pyLower exchange)).getD []

/-- `RuleLoader.load_product_type_rules`: `[]` for a falsy product type,
else the content of `<normalized>/base.yaml`. -/
def loadProductTypeRules (env : RulesEnv) (productType : Option String) : List Rule :=
  if !truthy productType then []
  else (env.productBase.lookup (normalizeProductType (productType.getD ""))).getD []

/-- `RuleLoader.load_product_type_exchange_rules`: the new
`<product>/exchanges/<ex>/exchange.yaml` layout wins even when empty; the
old `<product>/exchanges/<ex>.yaml` file is only consulted when the new
file is absent. -/
def loadProductTypeExchangeRules (env : RulesEnv)
    (productType exchange : Option String) : List Rule :=
  if !truthy productType || !truthy exchange then []
  else
    let nt := normalizeProductType (productType.getD "")
    let exl := pyLower (exchange.getD "")
    match env.productExchangeNew.lookup (nt, exl) with
    | some rs => rs
    | none => (env.productExchangeOld.lookup (nt, exl)).getD []

/-- `RuleLoader._load_custom_rule_file`: probe the eight locations in
priority order, returning the first definition found. -/
def loadCustomRuleFile (env : RulesEnv) (ruleName : String)
    (productType exchange : Option String) : Option RuleSetDef :=
  let exchangeHit : Option RuleSetDef :=
    if truthy exchange && truthy productType then
      let nt := normalizeProductType (productType.getD "")
      let exl := pyLower (exchange.getD "")
      (((env.exchangeCustom.lookup (nt, exl)).getD []).lookup ruleName).orElse
        (fun _ => ((env.exchangeCombined.lookup (nt, exl)).getD []).lookup ruleName)
    else none
  let productHit : Option RuleSetDef :=
    if truthy productType then
      let nt := normalizeProductType (productType.getD "")
      (((env.productCustom.lookup nt).getD []).lookup ruleName).orElse
        (fun _ => ((env.productCombined.lookup nt).getD []).lookup ruleName)
    else none
  exchangeHit.orElse (fun _ => productHit)
    |>.orElse (fun _ => env.rootCustom.lookup ruleName)
    |>.orElse (fun _ => env.rootCombined.lookup ruleName)
    |>.orElse (fun _ => env.legacyCustom.lookup ruleName)
    |>.orElse (fun _ => env.legacyCombined.lookup ruleName)

/-- `RuleLoader.get_available_custom_rule_sets` (modular branch): keys of
every custom *and* combined mapping in scope plus the legacy file stems,
deduplicated and sorted (`sorted(set(...))`). -/
def getAvailableCustomRuleSets (env : RulesEnv)
    (productType exchange : Option String) : List String :=
  let ruleSets :=
    (if truthy exchange && truthy productType then
      let nt := normalizeProductType (productType.getD "")
      let exl := pyLower (exchange.getD "")
      ((env.exchangeCustom.lookup (nt, exl)).getD []).map Prod.fst ++
        ((env.exchangeCombined.lookup (nt, exl)).getD []).map Prod.fst
    else []) ++
    (if truthy productType then
      let nt := normalizeProductType (productType.getD "")
      ((env.productCustom.lookup nt).getD []).map Prod.fst ++
        ((env.productCombined.lookup nt).getD []).map Prod.fst
    else []) ++
    env.rootCustom.map Prod.fst ++ env.rootCombined.map Prod.fst ++
    env.legacyCustom.map Prod.fst ++ env.legacyCombined.map Prod.fst
  pySorted ruleSets.dedup

/-- `RuleLoader.get_available_combined_rule_sets` (modular branch): keys of
the combined mappings in scope plus the legacy combined file stems,
deduplicated and sorted. -/
def getAvailableCombinedRuleSets (env : RulesEnv)
    (productType exchange : Option String) : List String :=
  let combinedRuleSets :=
    (if truthy exchange && truthy productType then
      let nt := normalizeProductType (productType.getD "")
      let exl := pyLower (exchange.getD "")
      ((env.exchangeCombined.lookup (nt, exl)).getD []).map Prod.fst
    else []) ++
    (if truthy productType then
      ((env.productCombined.lookup (normalizeProductType (productType.getD ""))).getD []).map Prod.fst
    else []) ++
    env.rootCombined.map Prod.fst ++ env.legacyCombined.map Prod.fst
  pySorted combinedRuleSets.dedup

/-- Resolution errors of `_resolve_custom_rule_set`.  All constructors but
`outOfFuel` model `ValueError`s; `outOfFuel` is the fuel artefact standing
in for Python's `RecursionError`, which is not a `ValueError` and would
propagate unwrapped. -/
inductive ResolveErr
  | circular (name : String)
  | notFound (name : String) (availableCustom availableCombined : List String)
  | notAList (name : String)
  | wrapped (includedName parentName : String) (inner : ResolveErr)
  | outOfFuel
deriving DecidableEq, Repr

/-- The trailing loop of `_resolve_custom_rule_set` over the non-`include`
entries of the document: list values extend, `type`-bearing dictionaries
append, everything else is skipped. -/
def extraRules (entries : List (String × SetEntry)) : List Rule :=
  entries.foldl (fun acc e =>
    match e.2 with
    | .ruleList rs => acc ++ rs
    | .typedDict r => acc ++ [r]
    | .otherEntry => acc) []

/-- The left-to-right loop over an `include` list: resolve each name with
the given child resolver (each child receives a copy of the current path's
visited set), fail fast, and re-raise inner `ValueError`s wrapped with the
include context (`outOfFuel`, standing in for `RecursionError`, is not a
`ValueError` and propagates unwrapped). -/
def resolveIncludeList (child : String → Except ResolveErr (List Rule))
    (parent : String) : List String → Except ResolveErr (List Rule)
  | [] => .ok []
  | n :: ns =>
    match child n with
    | .error .outOfFuel => .error .outOfFuel
    | .error e => .error (.wrapped n parent e)
    | .ok rs =>
      match resolveIncludeList child parent ns with
      | .error e => .error e
      | .ok rest => .ok (rs ++ rest)

/-- `RuleLoader._resolve_custom_rule_set`: per-path `visited` cycle check,
lookup through `_load_custom_rule_file`, recursive include resolution
(each child receives `visited.copy()` with the current name added), then
the direct extra rules.  Inner `ValueError`s are re-raised wrapped with
the include context. -/
def resolveCustomRuleSet (env : RulesEnv) (productType exchange : Option String) :
    Nat → String → List String → Except ResolveErr (List Rule)
  | 0, _, _ => .error .outOfFuel
  | fuel + 1, ruleName, visited =>
    if ruleName ∈ visited then .error (.circular ruleName)
    else
      let visited' := ruleName :: visited
      match loadCustomRuleFile env ruleName productType exchange with
      | none =>
        .error (.notFound ruleName
          (getAvailableCustomRuleSets env productType exchange)
          (getAvailableCombinedRuleSets env productType exchange))
      | some (.plain rs) => .ok rs
      | some .invalidDoc => .error (.notAList ruleName)
      | some (.withInclude inc entries) =>
        let included : Except ResolveErr (List Rule) :=
          match inc with
          | .many names =>
            resolveIncludeList
              (fun n => resolveCustomRuleSet env productType exchange fuel n visited')
              ruleName names
          | .single name =>
            match resolveCustomRuleSet env productType exchange fuel name visited' with
            | .ok rs => .ok rs
            | .error .outOfFuel => .error .outOfFuel
            | .error e => .error (.wrapped name ruleName e)
          | .notListOrStr => .ok []
        match included with
        | .error e => .error e
        | .ok rs => .ok (rs ++ extraRules entries)

/-- `RuleLoader.load_custom_rules_from_yaml`: `[]` for an absent or empty
name list, else the concatenation of the resolutions in the given order
(each starting from a fresh `visited` set). -/
def loadCustomRulesFromYaml (env : RulesEnv) (customRuleNames : Option (List String))
    (productType exchange : Option String) (fuel : Nat) : Except ResolveErr (List Rule) :=
  match customRuleNames with
  | none => .ok []
  | some names => go names
where
  /-- The accumulation loop over the requested names. -/
  go : List String → Except ResolveErr (List Rule)
    | [] => .ok []
    | n :: ns => do
      let rs ← resolveCustomRuleSet env productType exchange fuel n []
      let rest ← go ns
      return rs ++ rest

/-- `RuleLoader.load_custom_rules` (programmatic): `[]` for `None`, else
the list itself. -/
def loadCustomRules (customRules : Option (List Rule)) : List Rule :=
  customRules.getD []

/-- Python truthiness of an optional list argument (`if custom_rule_names:`). -/
def truthyList : Option (List α) → Bool
  | none => false
  | some l => !l.isEmpty

/-- `RuleLoader.load_combined_rules`: base, then product base, then root
exchange, then product×exchange, then named custom sets, then programmatic
custom rules.  Errors while loading the two product-layer files are
swallowed in the source (`except (ValueError, FileNotFoundError): pass`);
in this well-typed embedding those loads cannot fail.  Custom-set
resolution errors propagate. -/
def loadCombinedRules (env : RulesEnv) (exchange : Option String)
    (customRules : Option (List Rule)) (customRuleNames : Option (List String))
    (productType : Option String) (fuel : Nat) : Except ResolveErr (List Rule) :=
  let rules := loadBaseRules env
  let rules := if truthy productType then
      rules ++ loadProductTypeRules env productType
    else rules
  let rules := if truthy exchange then
      rules ++ loadExchangeRules env (exchange.getD "")
    else rules
  let rules := if truthy productType && truthy exchange then
      rules ++ loadProductTypeExchangeRules env productType exchange
    else rules
  let afterCustomNames : Except ResolveErr (List Rule) :=
    if truthyList customRuleNames then
      match loadCustomRulesFromYaml env customRuleNames productType exchange fuel with
      | .error e => .error e
      | .ok yamlCustomRules => .ok (rules ++ yamlCustomRules)
    else .ok rules
  match afterCustomNames with
  | .error e => .error e
  | .ok rules =>
    .ok (if truthyList customRules then rules ++ loadCustomRules customRules else rules)

/-! ## Theorems -/

theorem expandStep_eq_append (expanded : List RuleItem) (item : RuleItem) :
    expandStep expanded item = expanded ++ expandOneSpec item := by
  cases item with
  | nonDict t => rfl
  | dict r =>
    cases h : r.column with
    | none => simp [expandStep, expandOneSpec, h]
    | some column =>
      by_cases hc : (column.splitOn ",").length > 1 <;>
        simp [expandStep, expandOneSpec, h, hc]

theorem foldl_expandStep_eq (rules : List RuleItem) (init : List RuleItem) :
    rules.foldl expandStep init = init ++ rules.flatMap expandOneSpec := by
  induction rules generalizing init with
  | nil => simp
  | cons x xs ih => simp [List.foldl_cons, expandStep_eq_append, ih]

/-- C4: rule expansion emits, for each rule whose `column` is a
comma-separated list, exactly one rule per comma-separated column name
(trimmed, empty segments dropped, original order, all other fields
copied), and passes every other rule through unchanged: the expansion is
exactly the concatenation of the specified per-rule expansions. -/
theorem column_expansion_correct (rules : List RuleItem) :
    expandRulesWithMultipleColumns rules = rules.flatMap expandOneSpec := by
  simpa using foldl_expandStep_eq rules []

/-- C5: for every report formatted from an engine output,
`successful + failed = total = len(results)` and the overall success flag
is true iff every individual expectation result succeeded. -/
theorem report_totals_partition (results : List GEResult) :
    (formatResults (engineOutputOf results)).successful
        + (formatResults (engineOutputOf results)).failed
      = (formatResults (engineOutputOf results)).total ∧
    (formatResults (engineOutputOf results)).total = results.length ∧
    ((formatResults (engineOutputOf results)).success = true ↔
      ∀ r ∈ results, toNativeBool r.success = true) := by
  refine ⟨?_, rfl, ?_⟩
  · simpa [formatResults, engineOutputOf] using
      Nat.add_sub_cancel' (List.length_filter_le _ results)
  · simp [formatResults, engineOutputOf, toNativeBool, List.all_eq_true]

theorem loadCustomRules_of_not_truthy {customRules : Option (List Rule)}
    (h : truthyList customRules = false) : loadCustomRules customRules = [] := by
  cases customRules with
  | none => rfl
  | some l => cases l <;> simp_all [truthyList, loadCustomRules]

theorem loadCustomRulesFromYaml_of_not_truthy (env : RulesEnv)
    {customRuleNames : Option (List String)} (productType exchange : Option String)
    (fuel : Nat) (h : truthyList customRuleNames = false) :
    loadCustomRulesFromYaml env customRuleNames productType exchange fuel = .ok [] := by
  cases customRuleNames with
  | none => rfl
  | some l => cases l <;> simp_all [truthyList, loadCustomRulesFromYaml,
      loadCustomRulesFromYaml.go]

/-- C1 (part 1, stated as a lemma shared with the C1 theorem): the combined
merge is exactly the concatenation base ++ product base ++ root exchange ++
product×exchange ++ named custom sets ++ programmatic custom rules, with
each optional layer present exactly when its argument is given. -/
theorem loadCombinedRules_eq_concat (env : RulesEnv) (exchange : Option String)
    (customRules : Option (List Rule)) (customRuleNames : Option (List String))
    (productType : Option String) (fuel : Nat) :
    loadCombinedRules env exchange customRules customRuleNames productType fuel =
      (loadCustomRulesFromYaml env customRuleNames productType exchange fuel).map
        (fun namedCustom =>
          loadBaseRules env ++
          (if truthy productType then loadProductTypeRules env productType else []) ++
          (if truthy exchange then loadExchangeRules env (exchange.getD "") else []) ++
          (if truthy productType && truthy exchange then
            loadProductTypeExchangeRules env productType exchange else []) ++
          namedCustom ++ loadCustomRules customRules) := by
  have hprog : ∀ rules : List Rule,
      (if truthyList customRules = true then rules ++ loadCustomRules customRules else rules)
        = rules ++ loadCustomRules customRules := by
    intro rules
    by_cases hc : truthyList customRules = true
    · simp [hc]
    · simp [hc, loadCustomRules_of_not_truthy (Bool.eq_false_iff.mpr hc)]
  by_cases hn : truthyList customRuleNames = true
  · cases hres : loadCustomRulesFromYaml env customRuleNames productType exchange fuel with
    | error e => simp [loadCombinedRules, hn, hres, Except.map]
    | ok cs =>
      simp only [loadCombinedRules, hn, hres, if_true, Except.map, Except.map_ok]
      rw [hprog]
      split_ifs <;> simp [List.append_assoc]
  · have h0 := loadCustomRulesFromYaml_of_not_truthy env productType exchange fuel
      (Bool.eq_false_iff.mpr hn)
    rw [h0]
    simp only [loadCombinedRules, hn, Except.map, Except.map_ok, if_false,
      Bool.not_eq_true, Bool.false_eq_true]
    rw [hprog]
    split_ifs <;> simp [List.append_assoc]

/-- C1: the combined merge is exactly the concatenation, in this order, of
global base rules, product-type base rules (when a product type is given),
root exchange rules (when an exchange is given), product-type/exchange
rules (when both are given), the named custom rule sets resolved in the
given order, and the programmatic custom rules — duplicates preserved; and
consequently every rule of `<product>/exchanges/<ex>/exchange.yaml` appears
in the merged list after every `base.yaml` rule (in particular after a base
rule with the same column and type). -/
theorem combined_rules_merge_order (env : RulesEnv) (exchange : Option String)
    (customRules : Option (List Rule)) (customRuleNames : Option (List String))
    (productType : Option String) (fuel : Nat) :
    (loadCombinedRules env exchange customRules customRuleNames productType fuel =
      (loadCustomRulesFromYaml env customRuleNames productType exchange fuel).map
        (fun namedCustom =>
          loadBaseRules env ++
          (if truthy productType then loadProductTypeRules env productType else []) ++
          (if truthy exchange then loadExchangeRules env (exchange.getD "") else []) ++
          (if truthy productType && truthy exchange then
            loadProductTypeExchangeRules env productType exchange else []) ++
          namedCustom ++ loadCustomRules customRules)) ∧
    (∀ (pt ex : String), pt ≠ "" → ex ≠ "" →
      ∀ merged,
        loadCombinedRules env (some ex) customRules customRuleNames (some pt) fuel
          = .ok merged →
        ∀ i j, i < (loadBaseRules env).length →
          j < (loadProductTypeExchangeRules env (some pt) (some ex)).length →
          merged[i]? = (loadBaseRules env)[i]? ∧
          merged[(loadBaseRules env).length + (loadProductTypeRules env (some pt)).length
              + (loadExchangeRules env ex).length + j]?
            = (loadProductTypeExchangeRules env (some pt) (some ex))[j]? ∧
          i < (loadBaseRules env).length + (loadProductTypeRules env (some pt)).length
              + (loadExchangeRules env ex).length + j) := by
  refine ⟨loadCombinedRules_eq_concat env exchange customRules customRuleNames
    productType fuel, ?_⟩
  intro pt ex hp he merged hm i j hi hj
  have hpt : truthy (some pt) = true := by
    simp [truthy]; exact hp
  have hext : truthy (some ex) = true := by
    simp [truthy]; exact he
  rw [loadCombinedRules_eq_concat] at hm
  cases hcs : loadCustomRulesFromYaml env customRuleNames (some pt) (some ex) fuel with
  | error e => rw [hcs] at hm; simp [Except.map] at hm
  | ok cs =>
    rw [hcs] at hm
    simp only [Except.map, Except.ok.injEq] at hm
    subst hm
    simp only [hpt, hext, Bool.and_self, if_true, Option.getD_some]
    set b := loadBaseRules env with hb
    set P := loadProductTypeRules env (some pt) with hP
    set E := loadExchangeRules env ex with hE
    set X := loadProductTypeExchangeRules env (some pt) (some ex) with hX
    have hassoc :
        b ++ P ++ E ++ X ++ cs ++ loadCustomRules customRules
          = b ++ (P ++ (E ++ (X ++ (cs ++ loadCustomRules customRules)))) := by
      simp [List.append_assoc]
    rw [hassoc]
    refine ⟨?_, ?_, by omega⟩
    · exact List.getElem?_append_left hi
    · rw [List.getElem?_append_right (by omega)]
      have h2 : b.length + P.length + E.length + j - b.length = P.length + (E.length + j) := by
        omega
      rw [h2, List.getElem?_append_right (by omega)]
      have h3 : P.length + (E.length + j) - P.length = E.length + j := by omega
      rw [h3, List.getElem?_append_right (by omega)]
      have h4 : E.length + j - E.length = j := by omega
      rw [h4]
      exact List.getElem?_append_left hj

/-- Concrete rules directory for the C1 witness: one global base rule, one
product base rule, one root exchange rule, and one product×exchange rule
sharing column and type with the base rule. -/
def c1Env : RulesEnv :=
  { base := [⟨some "MasterId", some "ColumnUnique", []⟩]
    rootExchange := [("xhkg", [⟨some "RIC", some "ColumnNotNull", []⟩])]
    productBase := [("stock", [⟨some "Symbol", some "ColumnNotNull", []⟩])]
    productExchangeNew :=
      [(("stock", "xhkg"), [⟨some "MasterId", some "ColumnUnique", [("note", "override")]⟩])]
    productExchangeOld := []
    exchangeCustom := []
    exchangeCombined := []
    productCustom := []
    productCombined := []
    rootCustom := []
    rootCombined := []
    legacyCustom := []
    legacyCombined := [] }

/-- Witness for C1 at a concrete directory: the merged list for
(stock, XHKG) places the product×exchange override after the base rule
with the same column and type. -/
theorem combined_rules_merge_order_witness :
    [(⟨some "MasterId", some "ColumnUnique", []⟩ : Rule),
        ⟨some "Symbol", some "ColumnNotNull", []⟩,
        ⟨some "RIC", some "ColumnNotNull", []⟩,
        ⟨some "MasterId", some "ColumnUnique", [("note", "override")]⟩][0]?
      = (loadBaseRules c1Env)[0]? ∧
    [(⟨some "MasterId", some "ColumnUnique", []⟩ : Rule),
        ⟨some "Symbol", some "ColumnNotNull", []⟩,
        ⟨some "RIC", some "ColumnNotNull", []⟩,
        ⟨some "MasterId", some "ColumnUnique", [("note", "override")]⟩][
          (loadBaseRules c1Env).length + (loadProductTypeRules c1Env (some "stock")).length
            + (loadExchangeRules c1Env "XHKG").length + 0]?
      = (loadProductTypeExchangeRules c1Env (some "stock") (some "XHKG"))[0]? ∧
    0 < (loadBaseRules c1Env).length + (loadProductTypeRules c1Env (some "stock")).length
          + (loadExchangeRules c1Env "XHKG").length + 0 :=
  (combined_rules_merge_order c1Env (some "XHKG") none none (some "stock") 1).2
    "stock" "XHKG" (by decide) (by decide) _ (by rfl) 0 0 (by decide) (by decide)

/-- The specification's lookup order for a named rule set, written as the
ordered list of the eight locations' lookups (product type normalized,
exchange lowercased, as the file paths are built). -/
def lookupLocations (env : RulesEnv) (ruleName pt ex : String) :
    List (Option RuleSetDef) :=
  let nt := normalizeProductType pt
  let exl := pyLower ex
  [((env.exchangeCustom.lookup (nt, exl)).getD []).lookup ruleName,
   ((env.exchangeCombined.lookup (nt, exl)).getD []).lookup ruleName,
   ((env.productCustom.lookup nt).getD []).lookup ruleName,
   ((env.productCombined.lookup nt).getD []).lookup ruleName,
   env.rootCustom.lookup ruleName,
   env.rootCombined.lookup ruleName,
   env.legacyCustom.lookup ruleName,
   env.legacyCombined.lookup ruleName]

/-- The first definition found along the specification's lookup order. -/
def lookupFirstHit (env : RulesEnv) (ruleName pt ex : String) : Option RuleSetDef :=
  (lookupLocations env ruleName pt ex).findSome? id

/-- C2: with a product type and an exchange given, the definition used for
a named rule set is the first one found in the fixed eight-location lookup
order, and when the name appears in none of them resolution fails with the
error naming the missing set and carrying the available custom and
combined rule-set names. -/
theorem custom_rule_lookup_order (env : RulesEnv) (ruleName pt ex : String)
    (hp : pt ≠ "") (he : ex ≠ "") :
    loadCustomRuleFile env ruleName (some pt) (some ex)
        = lookupFirstHit env ruleName pt ex ∧
    (lookupFirstHit env ruleName pt ex = none →
      ∀ fuel,
        resolveCustomRuleSet env (some pt) (some ex) (fuel + 1) ruleName []
          = .error (.notFound ruleName
              (getAvailableCustomRuleSets env (some pt) (some ex))
              (getAvailableCombinedRuleSets env (some pt) (some ex)))) := by
  have hpt : truthy (some pt) = true := by simp [truthy]; exact hp
  have hext : truthy (some ex) = true := by simp [truthy]; exact he
  have hfirst : loadCustomRuleFile env ruleName (some pt) (some ex)
      = lookupFirstHit env ruleName pt ex := by
    simp only [loadCustomRuleFile, lookupFirstHit, lookupLocations, hpt, hext,
      Bool.and_self, if_true, Option.getD_some]
    rcases h1 : ((env.exchangeCustom.lookup
        (normalizeProductType pt, pyLower ex)).getD []).lookup ruleName with _ | rs <;>
      rcases h2 : ((env.exchangeCombined.lookup
        (normalizeProductType pt, pyLower ex)).getD []).lookup ruleName with _ | rs <;>
      rcases h3 : ((env.productCustom.lookup
        (normalizeProductType pt)).getD []).lookup ruleName with _ | rs <;>
      rcases h4 : ((env.productCombined.lookup
        (normalizeProductType pt)).getD []).lookup ruleName with _ | rs <;>
      rcases h5 : env.rootCustom.lookup ruleName with _ | rs <;>
      rcases h6 : env.rootCombined.lookup ruleName with _ | rs <;>
      simp [h1, h2, h3, h4, h5, h6, Option.orElse, List.findSome?] <;>
      rcases h7 : env.legacyCustom.lookup ruleName with _ | rs <;>
      simp [h7, Option.orElse] <;>
      rcases h8 : env.legacyCombined.lookup ruleName with _ | rs <;>
      simp [h8]
  refine ⟨hfirst, ?_⟩
  intro hnone fuel
  have hmiss : loadCustomRuleFile env ruleName (some pt) (some ex) = none :=
    hfirst.trans hnone
  simp [resolveCustomRuleSet, hmiss]

/-- Concrete rules directory for the C2 witness: the name `tradable` is
defined both at the product level and at the root, so the product-level
definition must win; the name `ghost` is defined nowhere. -/
def c2Env : RulesEnv :=
  { base := []
    rootExchange := []
    productBase := []
    productExchangeNew := []
    productExchangeOld := []
    exchangeCustom := []
    exchangeCombined := []
    productCustom := [("stock", [("tradable", .plain [⟨some "Status", some "ColumnInSet", []⟩])])]
    productCombined := []
    rootCustom := [("tradable", .plain [⟨some "Status", some "ColumnNotNull", []⟩])]
    rootCombined := []
    legacyCustom := []
    legacyCombined := [] }

/-- Witness for C2 at a concrete directory: the lookup returns the first
hit, and an undefined name resolves to the not-found error listing the
available names. -/
theorem custom_rule_lookup_order_witness :
    loadCustomRuleFile c2Env "tradable" (some "stock") (some "XHKG")
        = lookupFirstHit c2Env "tradable" "stock" "XHKG" ∧
    resolveCustomRuleSet c2Env (some "stock") (some "XHKG") 3 "ghost" []
        = .error (.notFound "ghost"
            (getAvailableCustomRuleSets c2Env (some "stock") (some "XHKG"))
            (getAvailableCombinedRuleSets c2Env (some "stock") (some "XHKG"))) :=
  ⟨(custom_rule_lookup_order c2Env "tradable" "stock" "XHKG" (by decide) (by decide)).1,
   (custom_rule_lookup_order c2Env "ghost" "stock" "XHKG" (by decide) (by decide)).2
     (by rfl) 2⟩

/-! ### C3 — include-cycle behaviour of `_resolve_custom_rule_set` -/

/-- The include names contributed by an `include` value (a list contributes
its elements, a single string itself, anything else nothing). -/
def includeNames : IncludeSpec → List String
  | .many names => names
  | .single name => [name]
  | .notListOrStr => []

/-- The include graph: `n` references `m` when the definition found for `n`
is a mapping whose `include` value mentions `m`. -/
def includeEdge (env : RulesEnv) (pt ex : Option String) (n m : String) : Prop :=
  ∃ inc entries, loadCustomRuleFile env n pt ex = some (.withInclude inc entries) ∧
    m ∈ includeNames inc

/-- A cycle in the include graph is reachable from `name`: some include
path starting at `name` revisits a node. -/
def cyclicFrom (env : RulesEnv) (pt ex : Option String) (name : String) : Prop :=
  ∃ l : List String, l.Chain' (includeEdge env pt ex) ∧ l.head? = some name ∧ ¬ l.Nodup

/-- All rule-set names defined anywhere in the directory (deduplicated);
every successful lookup lands in this list, which bounds the recursion
depth of include resolution. -/
def keyUniverse (env : RulesEnv) : List String :=
  (env.exchangeCustom.flatMap (fun e => e.2.map Prod.fst) ++
   env.exchangeCombined.flatMap (fun e => e.2.map Prod.fst) ++
   env.productCustom.flatMap (fun e => e.2.map Prod.fst) ++
   env.productCombined.flatMap (fun e => e.2.map Prod.fst) ++
   env.rootCustom.map Prod.fst ++ env.rootCombined.map Prod.fst ++
   env.legacyCustom.map Prod.fst ++ env.legacyCombined.map Prod.fst).dedup

/-- Number of defined names not yet on the current resolution path. -/
def remainingKeys (env : RulesEnv) (visited : List String) : Nat :=
  ((keyUniverse env).filter (fun k => decide (k ∉ visited))).length

theorem orElse_eq_some {α : Type} {a : Option α} {b : Unit → Option α} {c : α}
    (h : a.orElse b = some c) : a = some c ∨ b () = some c := by
  cases a <;> simp_all [Option.orElse]

theorem mem_of_lookup_eq_some {α β : Type} [BEq α] [LawfulBEq α]
    {l : List (α × β)} {k : α} {v : β} (h : l.lookup k = some v) : (k, v) ∈ l := by
  induction l with
  | nil => simp [List.lookup] at h
  | cons p l ih =>
    obtain ⟨a, b⟩ := p
    cases hba : (k == a) with
    | true =>
      simp only [List.lookup, hba] at h
      obtain rfl : b = v := by simpa using h
      obtain rfl : k = a := eq_of_beq hba
      exact List.mem_cons_self _ _
    | false =>
      simp only [List.lookup, hba] at h
      exact List.mem_cons_of_mem _ (ih h)

theorem mem_map_fst_of_lookup {α β : Type} [BEq α] [LawfulBEq α]
    {l : List (α × β)} {k : α} {v : β}
    (h : l.lookup k = some v) : k ∈ l.map Prod.fst :=
  List.mem_map.mpr ⟨(k, v), mem_of_lookup_eq_some h, rfl⟩

theorem mem_flatMap_of_nested_lookup {β : Type} [BEq β] [LawfulBEq β]
    {outer : List (β × List (String × RuleSetDef))} {key : β} {name : String}
    {v : RuleSetDef} (h : ((outer.lookup key).getD []).lookup name = some v) :
    name ∈ outer.flatMap (fun e => e.2.map Prod.fst) := by
  cases houter : outer.lookup key with
  | none => rw [houter] at h; simp at h
  | some inner =>
    rw [houter] at h
    exact List.mem_flatMap.mpr
      ⟨(key, inner), mem_of_lookup_eq_some houter, mem_map_fst_of_lookup h⟩

theorem mem_keyUniverse_of_lookup (env : RulesEnv) {ruleName : String}
    {pt ex : Option String} {rs : RuleSetDef}
    (h : loadCustomRuleFile env ruleName pt ex = some rs) :
    ruleName ∈ keyUniverse env := by
  have goal_of : ∀ {l : List String},
      ruleName ∈ l →
      l = env.exchangeCustom.flatMap (fun e => e.2.map Prod.fst) ∨
      l = env.exchangeCombined.flatMap (fun e => e.2.map Prod.fst) ∨
      l = env.productCustom.flatMap (fun e => e.2.map Prod.fst) ∨
      l = env.productCombined.flatMap (fun e => e.2.map Prod.fst) ∨
      l = env.rootCustom.map Prod.fst ∨
      l = env.rootCombined.map Prod.fst ∨
      l = env.legacyCustom.map Prod.fst ∨
      l = env.legacyCombined.map Prod.fst →
      ruleName ∈ keyUniverse env := by
    intro l hmem hface
    rw [keyUniverse, List.mem_dedup]
    rcases hface with rfl | rfl | rfl | rfl | rfl | rfl | rfl | rfl <;>
      simp [hmem]
  simp only [loadCustomRuleFile] at h
  rcases orElse_eq_some h with h | h
  · rcases orElse_eq_some h with h | h
    · rcases orElse_eq_some h with h | h
      · rcases orElse_eq_some h with h | h
        · rcases orElse_eq_some h with h | h
          · -- exchange-level block (gated)
            by_cases hg : (truthy ex && truthy pt) = true
            · rw [if_pos hg] at h
              rcases orElse_eq_some h with h | h
              · exact goal_of (mem_flatMap_of_nested_lookup h) (Or.inl rfl)
              · exact goal_of (mem_flatMap_of_nested_lookup h) (Or.inr (Or.inl rfl))
            · rw [if_neg hg] at h; simp at h
          · -- product-level block (gated)
            by_cases hg : truthy pt = true
            · rw [if_pos hg] at h
              rcases orElse_eq_some h with h | h
              · exact goal_of (mem_flatMap_of_nested_lookup h)
                  (Or.inr (Or.inr (Or.inl rfl)))
              · exact goal_of (mem_flatMap_of_nested_lookup h)
                  (Or.inr (Or.inr (Or.inr (Or.inl rfl))))
            · rw [if_neg hg] at h; simp at h
        · exact goal_of (mem_map_fst_of_lookup h)
            (Or.inr (Or.inr (Or.inr (Or.inr (Or.inl rfl)))))
      · exact goal_of (mem_map_fst_of_lookup h)
          (Or.inr (Or.inr (Or.inr (Or.inr (Or.inr (Or.inl rfl))))))
    · exact goal_of (mem_map_fst_of_lookup h)
        (Or.inr (Or.inr (Or.inr (Or.inr (Or.inr (Or.inr (Or.inl rfl)))))))
  · exact goal_of (mem_map_fst_of_lookup h)
      (Or.inr (Or.inr (Or.inr (Or.inr (Or.inr (Or.inr (Or.inr rfl)))))))

theorem filter_notMem_cons_length_lt (U : List String) (x : String)
    (visited : List String) (hxU : x ∈ U) (hxv : x ∉ visited) :
    (U.filter (fun k => decide (k ∉ (x :: visited)))).length
      < (U.filter (fun k => decide (k ∉ visited))).length := by
  have hsub : List.Sublist (U.filter (fun k => decide (k ∉ (x :: visited))))
      (U.filter (fun k => decide (k ∉ visited))) :=
    List.monotone_filter_right U (fun a ha => by
      simp only [decide_eq_true_eq] at ha ⊢
      exact fun hav => ha (List.mem_cons_of_mem _ hav))
  by_contra hnot
  have heq : (U.filter (fun k => decide (k ∉ (x :: visited)))).length
      = (U.filter (fun k => decide (k ∉ visited))).length :=
    Nat.le_antisymm hsub.length_le (Nat.le_of_not_lt hnot)
  have hlists := hsub.eq_of_length heq
  have hxin : x ∈ U.filter (fun k => decide (k ∉ visited)) := by
    simp [List.mem_filter, hxU, hxv]
  rw [← hlists] at hxin
  simp [List.mem_filter] at hxin

theorem remainingKeys_cons_lt (env : RulesEnv) {ruleName : String} {visited : List String}
    (hmem : ruleName ∈ keyUniverse env) (hnv : ruleName ∉ visited) :
    remainingKeys env (ruleName :: visited) < remainingKeys env visited :=
  filter_notMem_cons_length_lt (keyUniverse env) ruleName visited hmem hnv

theorem resolveIncludeList_no_fuel (child : String → Except ResolveErr (List Rule))
    (parent : String)
    (h : ∀ n, child n ≠ .error .outOfFuel) :
    ∀ names, resolveIncludeList child parent names ≠ .error .outOfFuel := by
  intro names
  induction names with
  | nil => simp [resolveIncludeList]
  | cons n ns ihn =>
    simp only [resolveIncludeList]
    cases hr : child n with
    | error e =>
      cases e <;> simp_all
    | ok rs =>
      cases hl : resolveIncludeList child parent ns with
      | error e =>
        rw [hl] at ihn
        cases e <;> simp_all
      | ok rest => simp

theorem resolve_no_fuel (env : RulesEnv) (pt ex : Option String) :
    ∀ fuel name visited, remainingKeys env visited < fuel →
      resolveCustomRuleSet env pt ex fuel name visited ≠ .error .outOfFuel := by
  intro fuel
  induction fuel with
  | zero => intro name visited h; omega
  | succ f ih =>
    intro name visited hlt
    simp only [resolveCustomRuleSet]
    by_cases hv : name ∈ visited
    · simp [hv]
    · simp only [hv, if_false]
      cases hlk : loadCustomRuleFile env name pt ex with
      | none => simp
      | some rsdef =>
        cases rsdef with
        | plain rs => simp
        | invalidDoc => simp
        | withInclude inc entries =>
          have hmem := mem_keyUniverse_of_lookup env hlk
          have hchild : remainingKeys env (name :: visited) < f := by
            have h1 := remainingKeys_cons_lt env hmem hv
            omega
          cases inc with
          | many names =>
            have hlist := resolveIncludeList_no_fuel
              (fun n => resolveCustomRuleSet env pt ex f n (name :: visited)) name
              (fun n => ih n (name :: visited) hchild) names
            cases hres : resolveIncludeList
                (fun n => resolveCustomRuleSet env pt ex f n (name :: visited))
                name names with
            | error e => rw [hres] at hlist; simp_all
            | ok rs => simp [hres]
          | single n2 =>
            have hchildok := ih n2 (name :: visited) hchild
            cases hres : resolveCustomRuleSet env pt ex f n2 (name :: visited) with
            | error e => rw [hres] at hchildok; cases e <;> simp_all
            | ok rs => simp [hres]
          | notListOrStr => simp

theorem resolve_ok_head (env : RulesEnv) (pt ex : Option String)
    {fuel : Nat} {name : String} {visited : List String} {rs : List Rule}
    (h : resolveCustomRuleSet env pt ex fuel name visited = .ok rs) :
    name ∉ visited := by
  cases fuel with
  | zero => simp [resolveCustomRuleSet] at h
  | succ f =>
    by_contra hv
    simp [resolveCustomRuleSet, hv] at h

theorem resolveIncludeList_ok_each (child : String → Except ResolveErr (List Rule))
    (parent : String) :
    ∀ (names : List String) (rs : List Rule),
      resolveIncludeList child parent names = .ok rs →
      ∀ m ∈ names, ∃ r, child m = .ok r := by
  intro names
  induction names with
  | nil => simp
  | cons n ns ihn =>
    intro rs h m hm
    simp only [resolveIncludeList] at h
    cases hr : child n with
    | error e => rw [hr] at h; cases e <;> simp at h
    | ok r0 =>
      rw [hr] at h
      cases hl : resolveIncludeList child parent ns with
      | error e => rw [hl] at h; simp at h
      | ok rest =>
        rcases List.mem_cons.mp hm with rfl | hm'
        · exact ⟨r0, hr⟩
        · exact ihn rest hl m hm'

theorem resolve_ok_child (env : RulesEnv) (pt ex : Option String)
    {f : Nat} {name : String} {visited : List String}
    {inc : IncludeSpec} {entries : List (String × SetEntry)} {rs : List Rule}
    (hlk : loadCustomRuleFile env name pt ex = some (.withInclude inc entries))
    (h : resolveCustomRuleSet env pt ex (f + 1) name visited = .ok rs) :
    ∀ m ∈ includeNames inc, ∃ r,
      resolveCustomRuleSet env pt ex f m (name :: visited) = .ok r := by
  have hv : name ∉ visited := resolve_ok_head env pt ex h
  cases inc with
  | many names =>
    intro m hm
    simp only [resolveCustomRuleSet, hv, if_false, hlk] at h
    cases hres : resolveIncludeList
        (fun n => resolveCustomRuleSet env pt ex f n (name :: visited)) name names with
    | error e => rw [hres] at h; simp at h
    | ok rs0 =>
      exact resolveIncludeList_ok_each
        (fun n => resolveCustomRuleSet env pt ex f n (name :: visited)) name names rs0
        hres m hm
  | single n2 =>
    intro m hm
    obtain rfl : m = n2 := by simpa [includeNames] using hm
    simp only [resolveCustomRuleSet, hv, if_false, hlk] at h
    cases hres : resolveCustomRuleSet env pt ex f m (name :: visited) with
    | error e => rw [hres] at h; cases e <;> simp at h
    | ok r0 => exact ⟨r0, rfl⟩
  | notListOrStr => simp [includeNames]

theorem resolve_ok_path (env : RulesEnv) (pt ex : Option String) :
    ∀ (l : List String) (fuel : Nat) (name : String) (visited : List String)
      (rs : List Rule),
      resolveCustomRuleSet env pt ex fuel name visited = .ok rs →
      List.Chain' (includeEdge env pt ex) (name :: l) →
      (name :: l).Nodup ∧ ∀ m ∈ (name :: l), m ∉ visited := by
  intro l
  induction l with
  | nil =>
    intro fuel name visited rs hok _
    exact ⟨List.nodup_singleton _, by
      intro m hm
      obtain rfl : m = name := by simpa using hm
      exact resolve_ok_head env pt ex hok⟩
  | cons m l ihl =>
    intro fuel name visited rs hok hchain
    obtain ⟨hedge, hchain'⟩ := List.chain'_cons.mp hchain
    obtain ⟨inc, entries, hlk, hmem⟩ := hedge
    have hnv : name ∉ visited := resolve_ok_head env pt ex hok
    cases fuel with
    | zero => simp [resolveCustomRuleSet] at hok
    | succ f =>
      obtain ⟨r, hr⟩ := resolve_ok_child env pt ex hlk hok m hmem
      obtain ⟨hnodup, hdisj⟩ := ihl f m (name :: visited) r hr hchain'
      refine ⟨List.nodup_cons.mpr ⟨?_, hnodup⟩, ?_⟩
      · intro hmm
        exact (hdisj name hmm) (List.mem_cons_self _ _)
      · intro k hk
        rcases List.mem_cons.mp hk with rfl | hk'
        · exact hnv
        · intro hkv
          exact (hdisj k hk') (List.mem_cons_of_mem _ hkv)

theorem cyclic_resolve_not_ok (env : RulesEnv) (pt ex : Option String)
    {name : String} (hcyc : cyclicFrom env pt ex name) :
    ∀ fuel rs, resolveCustomRuleSet env pt ex fuel name [] ≠ .ok rs := by
  obtain ⟨l, hchain, hhead, hdup⟩ := hcyc
  intro fuel rs hok
  cases l with
  | nil => simp at hhead
  | cons a l' =>
    obtain rfl : a = name := by simpa using hhead
    exact hdup (resolve_ok_path env pt ex l' fuel a [] rs hok hchain).1

/-- Whether a resolution error is, or wraps, the circular-reference error. -/
def ResolveErr.hasCircular : ResolveErr → Bool
  | .circular _ => true
  | .wrapped _ _ e => e.hasCircular
  | _ => false

/-- Concrete rules directory for C3: `A` includes `missing` (undefined)
and then `B`, and `B` includes `A` — so a cycle `A → B → A` is reachable
from `A`, but the depth-first left-to-right traversal hits the undefined
name first. -/
def c3Env : RulesEnv :=
  { base := []
    rootExchange := []
    productBase := []
    productExchangeNew := []
    productExchangeOld := []
    exchangeCustom := []
    exchangeCombined := []
    productCustom := []
    productCombined := []
    rootCustom := [("A", .withInclude (.many ["missing", "B"]) []),
                   ("B", .withInclude (.many ["A"]) [])]
    rootCombined := []
    legacyCustom := []
    legacyCombined := [] }

theorem c3Env_cyclic : cyclicFrom c3Env none none "A" :=
  ⟨["A", "B", "A"],
   List.chain'_cons.mpr ⟨⟨.many ["missing", "B"], [], rfl, by decide⟩,
     List.chain'_cons.mpr ⟨⟨.many ["A"], [], rfl, by decide⟩,
       List.chain'_singleton _⟩⟩,
   rfl, by decide⟩

/-- C3 counterexample: the include graph of `A` in `c3Env` contains a
reachable cycle, yet resolving `A` raises the wrapped not-found error for
the undefined include `missing` — not the circular-reference error. -/
theorem include_cycle_counterexample :
    cyclicFrom c3Env none none "A" ∧
    resolveCustomRuleSet c3Env none none 10 "A" []
      = .error (.wrapped "missing" "A" (.notFound "missing" ["A", "B"] [])) ∧
    (ResolveErr.wrapped "missing" "A"
      (.notFound "missing" ["A", "B"] [])).hasCircular = false :=
  ⟨c3Env_cyclic, by rfl, rfl⟩

/-- C3 (amended): include resolution cannot recurse indefinitely — any fuel
budget above the number of defined rule-set names is never exhausted — and
a set from which a cycle in the include graph is reachable never resolves
successfully: resolution terminates with an error (the circular-reference
error unless an earlier failure of the depth-first left-to-right traversal,
such as an undefined included name, preempts it). -/
theorem include_cycle_terminates_and_fails (env : RulesEnv) (pt ex : Option String)
    (name : String) :
    (∀ fuel, (keyUniverse env).length < fuel →
      resolveCustomRuleSet env pt ex fuel name [] ≠ .error .outOfFuel) ∧
    (cyclicFrom env pt ex name →
      ∀ fuel rs, resolveCustomRuleSet env pt ex fuel name [] ≠ .ok rs) := by
  constructor
  · intro fuel hf
    apply resolve_no_fuel
    have hle : remainingKeys env [] ≤ (keyUniverse env).length := by
      simpa [remainingKeys] using List.length_filter_le _ (keyUniverse env)
    omega
  · exact fun hcyc fuel rs => cyclic_resolve_not_ok env pt ex hcyc fuel rs

/-- Witness for the amended C3 at the concrete directory `c3Env`. -/
theorem include_cycle_terminates_and_fails_witness :
    ((keyUniverse c3Env).length < 10 ∧
      resolveCustomRuleSet c3Env none none 10 "A" [] ≠ .error .outOfFuel) ∧
    resolveCustomRuleSet c3Env none none 10 "A" [] ≠ .ok [] :=
  ⟨⟨by decide,
    (include_cycle_terminates_and_fails c3Env none none "A").1 10 (by decide)⟩,
   (include_cycle_terminates_and_fails c3Env none none "A").2 c3Env_cyclic 10 []⟩

/-! ## Generator side: API client, repository, validator, CLI
(`generator/src/api/api_client.py`, `generator/src/database/database_repository.py`,
`generator/src/core/validator.py`, `generator/src/cli/cli.py`) -/

/-- Python `pat in s` for strings: `s.splitOn pat` has more than one part
exactly when `pat` occurs in `s`. -/
def containsSub (s pat : String) : Bool := (s.splitOn pat).length > 1

/-- `urllib.parse.parse_qs` restricted to reading one single-valued query
parameter, as the repository uses it: the text after `?`, split on `&`,
the first `key=value` pair with the wanted key. -/
def parseQsParam (url key : String) : Option String :=
  let query := match url.splitOn "?" with
    | _ :: q :: _ => q
    | _ => ""
  (query.splitOn "&").findSome? (fun kv =>
    match kv.splitOn "=" with
    | k :: v :: _ => if k == key then some v else none
    | _ => none)

/-- Index of the first occurrence of a string in a list (used for
`parts.index("validate-by-masterid")`). -/
def indexOfStr (x : String) : List String → Nat
  | [] => 0
  | y :: ys => if y == x then 0 else indexOfStr x ys + 1

/-- The `/validate-by-masterid/{master_id}/{combined_rule_name}` path
segment extraction shared by `save_validation_run` and
`save_rules_applied`. -/
def masteridRuleName (url : String) : Option String :=
  let parts := url.splitOn "/"
  if containsSub url "validate-by-masterid" && "validate-by-masterid" ∈ parts then
    let idx := indexOfStr "validate-by-masterid" parts
    if idx + 2 < parts.length then parts[idx + 2]? else none
  else none

/-- The generator's `ValidationResult` object, as far as the repository
reads it (region, product type, exchange and the success flag). -/
structure ValidationResultObj where
  region : String
  productType : String
  exchange : String
  success : Bool
deriving DecidableEq, Repr

/-- The API response dictionary as the repository reads it.  The formatter
(§C5) writes identical counters at the top level and under
`results.summary`, so the `get(..., summary.get(...))` fallbacks collapse
to these fields; `expectationResults` holds the success flag of each
`results.expectation_results` entry; `hasResults` is the truthiness of the
`results` dictionary. -/
structure ApiResult where
  success : Bool
  totalExpectations : Nat
  successfulExpectations : Nat
  failedExpectations : Nat
  expectationResults : List Bool
  hasResults : Bool
  apiUrl : String
deriving DecidableEq, Repr

/-- The `rules_applied` label computed at the top of `save_validation_run`
(`base` → `custom`/`combined` from the URL, else `exchange` when the
response carries a results dictionary). -/
def runRowLabel (api : ApiResult) : String :=
  if containsSub api.apiUrl "validate-custom" then
    match parseQsParam api.apiUrl "custom_rule_names" with
    | some names =>
      if containsSub names "," || containsSub (pyLower names) "combined"
          || containsSub (pyLower names) "is_tradable"
          || containsSub (pyLower names) "tradable" then
        "combined"
      else "custom"
    | none => "custom"
  else if containsSub api.apiUrl "validate-by-masterid" then "combined"
  else if api.hasResults then "exchange"
  else "base"

/-- The `custom_rule_names` column computed in `save_validation_run`. -/
def runRowCustomRuleNames (api : ApiResult) : Option String :=
  if containsSub api.apiUrl "validate-custom" then
    if containsSub api.apiUrl "custom_rule_names=" then
      parseQsParam api.apiUrl "custom_rule_names"
    else none
  else if containsSub api.apiUrl "validate-by-masterid" then
    masteridRuleName api.apiUrl
  else none

/-- One `GeValidationRuns` row. -/
structure RunRow where
  region : String
  productType : String
  exchange : String
  success : Bool
  totalExpectations : Nat
  successfulExpectations : Nat
  failedExpectations : Nat
  rulesApplied : String
  customRuleNames : Option String
deriving DecidableEq, Repr

/-- The `GeValidationRuns` row `save_validation_run` inserts. -/
def mkRunRow (vr : ValidationResultObj) (api : ApiResult) : RunRow :=
  { region := vr.region
    productType := vr.productType
    exchange := vr.exchange
    success := vr.success
    totalExpectations := api.totalExpectations
    successfulExpectations := api.successfulExpectations
    failedExpectations := api.failedExpectations
    rulesApplied := runRowLabel api
    customRuleNames := runRowCustomRuleNames api }

/-- One `GeExpectationResults` row (keyed by run and carrying the
expectation's success flag; the remaining marshalled fields do not affect
which writes are visible, which is what the claim is about). -/
structure ExpRow where
  runId : Nat
  success : Bool
deriving DecidableEq, Repr

/-- One `GeValidationRulesApplied` row. -/
structure RuleRow where
  runId : Nat
  ruleName : String
  ruleType : String
deriving DecidableEq, Repr

/-- The `rules_info` list built by `save_rules_applied`: base, product and
exchange provenance rows unless the URL is a custom-only validation;
custom/combined rows per extracted rule name; a default product row when
nothing else applies. -/
def rulesInfo (vr : ValidationResultObj) (api : ApiResult) :
    List (String × String) :=
  let baseRows : List (String × String) :=
    if !containsSub api.apiUrl "validate-custom" then
      [("base_validation", "base"),
       (vr.productType ++ "_validation", "product_type"),
       (pyLower vr.exchange ++ "_exchange_validation", "exchange")]
    else []
  let customRuleNamesStr : Option String :=
    if containsSub api.apiUrl "validate-custom"
        || containsSub api.apiUrl "validate-by-masterid" then
      if containsSub api.apiUrl "custom_rule_names=" then
        parseQsParam api.apiUrl "custom_rule_names"
      else if containsSub api.apiUrl "validate-by-masterid" then
        masteridRuleName api.apiUrl
      else none
    else none
  let customRows : List (String × String) :=
    match customRuleNamesStr with
    | none => []
    | some namesStr =>
      ((namesStr.splitOn ",").map pyStrip).map (fun ruleName =>
        (ruleName,
         if containsSub (pyLower ruleName) "combined"
             || containsSub (pyLower ruleName) "is_tradable"
             || containsSub (pyLower ruleName) "tradable"
             || containsSub (pyLower ruleName) "comprehensive" then
           "combined"
         else "custom"))
  let rows := baseRows ++ customRows
  if rows.isEmpty then [(vr.productType ++ "_validation", "product_type")] else rows

/-- The three-table database state (committed rows only). -/
structure DBState where
  runs : List RunRow
  expRows : List ExpRow
  ruleRows : List RuleRow
  nextRunId : Nat
deriving DecidableEq, Repr

/-- Failure injection: which of the three writes the database error hits. -/
inductive WriteStep
  | runHeader
  | expectationRows
  | ruleWrites
deriving DecidableEq, Repr

/-- `ValidationRepository.save_validation_run`: insert one
`GeValidationRuns` row and **commit this write on its own** (line
`conn.commit()` inside the function); on an error the transaction is
rolled back — only this write's pending insert is discarded — and the
exception re-raised.  Returns the new state alongside the outcome. -/
def saveValidationRun (db : DBState) (failAt : Option WriteStep)
    (vr : ValidationResultObj) (api : ApiResult) :
    DBState × Except String Nat :=
  if failAt == some .runHeader then
    (db, .error "Error saving validation run")
  else
    (({ db with
        runs := db.runs ++ [mkRunRow vr api]
        nextRunId := db.nextRunId + 1 } : DBState),
     .ok db.nextRunId)

/-- `ValidationRepository.save_expectation_results`: with no expectation
results the function returns before any insert; otherwise it inserts one
row per result and **commits this write on its own**; on an error it rolls
back its own pending inserts and re-raises. -/
def saveExpectationResults (db : DBState) (failAt : Option WriteStep)
    (runId : Nat) (api : ApiResult) : DBState × Except String Unit :=
  if api.expectationResults.isEmpty then (db, .ok ())
  else if failAt == some .expectationRows then
    (db, .error "Error saving expectation results")
  else
    (({ db with
        expRows := db.expRows ++
          api.expectationResults.map (fun s => ⟨runId, s⟩) } : DBState),
     .ok ())

/-- `ValidationRepository.save_rules_applied`: insert the `rules_info`
rows and **commit this write on its own**; on an error it rolls back its
own pending inserts and re-raises. -/
def saveRulesApplied (db : DBState) (failAt : Option WriteStep)
    (runId : Nat) (vr : ValidationResultObj) (api : ApiResult) :
    DBState × Except String Unit :=
  if failAt == some .ruleWrites then
    (db, .error "Error saving rules applied")
  else
    (({ db with
        ruleRows := db.ruleRows ++
          (rulesInfo vr api).map (fun r => ⟨runId, r.1, r.2⟩) } : DBState),
     .ok ())

/-- `ValidationRepository.save_complete_validation`: the three writes in
sequence, each committing separately; the first failure propagates. -/
def saveCompleteValidation (db : DBState) (failAt : Option WriteStep)
    (vr : ValidationResultObj) (api : ApiResult) :
    DBState × Except String Nat :=
  match saveValidationRun db failAt vr api with
  | (db1, .error e) => (db1, .error e)
  | (db1, .ok runId) =>
    match saveExpectationResults db1 failAt runId api with
    | (db2, .error e) => (db2, .error e)
    | (db2, .ok _) =>
      match saveRulesApplied db2 failAt runId vr api with
      | (db3, .error e) => (db3, .error e)
      | (db3, .ok _) => (db3, .ok runId)

/-- The database-saving tail of `BatchValidator._validate_single` (lines
188–210): `save_complete_validation` inside `try`; on success the run id
is recorded on the result; on any persistence exception the error is
logged and swallowed (`# Don't raise`), and the validation result is
returned unchanged with no run id. -/
def validateSingleSave (db : DBState) (failAt : Option WriteStep)
    (vr : ValidationResultObj) (api : ApiResult) :
    DBState × ValidationResultObj × Option Nat :=
  match saveCompleteValidation db failAt vr api with
  | (db1, .ok runId) => (db1, vr, some runId)
  | (db1, .error _) => (db1, vr, none)

/-! ### C7 — the validation API client (`api_client.py`) -/

/-- Outcome of one HTTP request attempt, as `requests` reports it. -/
inductive HttpOutcome
  | response (statusCode : Nat) (jsonBody : Option ApiResult)
  | connectionFailure
  | timedOut
deriving DecidableEq, Repr

/-- The exceptions `validate_exchange` raises, by originating branch. -/
inductive ApiClientErr
  | httpError (statusCode : Nat)
  | connectionError
  | timeoutError (timeout : Nat)
  | invalidJson
deriving DecidableEq, Repr

/-- The default of the `timeout` parameter of
`ValidationAPIClient.validate_exchange` (seconds). -/
def validateExchangeDefaultTimeout : Nat := 30

/-- `ValidationAPIClient.validate_exchange`: a single `session.get` (the
function contains no retry loop, and neither does its caller
`BatchValidator._validate_single`), whose outcome is the head of the
server's response script; `raise_for_status` turns any 4xx/5xx status into
an exception, an unparsable body raises, and a 2xx JSON body is returned.
The first component counts the HTTP requests issued by the call. -/
def validateExchange (server : List HttpOutcome) (timeout : Nat) :
    Nat × Except ApiClientErr ApiResult :=
  match server.head? with
  | none => (1, .error .connectionError)
  | some .connectionFailure => (1, .error .connectionError)
  | some .timedOut => (1, .error (.timeoutError timeout))
  | some (.response statusCode jsonBody) =>
    if 400 ≤ statusCode then (1, .error (.httpError statusCode))
    else
      match jsonBody with
      | none => (1, .error .invalidJson)
      | some result => (1, .ok result)

/-! ### Theorems for C6 and C7 -/

/-- Concrete inputs for the C6 counterexample and witness. -/
def vrC6 : ValidationResultObj :=
  { region := "apac", productType := "stock", exchange := "XHKG", success := true }

def apiC6 : ApiResult :=
  { success := true
    totalExpectations := 2
    successfulExpectations := 2
    failedExpectations := 0
    expectationResults := [true, true]
    hasResults := true
    apiUrl := "http://127.0.0.1:5006/api/v1/rules/validate/stock/XHKG" }

def db0 : DBState := { runs := [], expRows := [], ruleRows := [], nextRunId := 1 }

/-- C6 counterexample: when the expectation-rows write fails, the call
raises — yet the run-header row, committed by the first write's own
`conn.commit()`, remains visible afterwards.  The three writes are not one
atomic transaction. -/
theorem persistence_atomicity_counterexample :
    (saveCompleteValidation db0 (some .expectationRows) vrC6 apiC6).2
      = .error "Error saving expectation results" ∧
    (saveCompleteValidation db0 (some .expectationRows) vrC6 apiC6).1.runs
      = [mkRunRow vrC6 apiC6] :=
  ⟨rfl, rfl⟩

/-- C6 (amended): each of the three writes commits in its own transaction,
so a failing write rolls back only itself: after a failure of the
expectation-rows write the run header remains committed, and after a
failure of the rules-applied write both the header and the expectation
rows remain; only a failure of the first write leaves the database
unchanged.  A persistence failure never loses the validation result:
`_validate_single` swallows the exception and returns the result with no
run id recorded. -/
theorem persistence_commits_per_write (db : DBState) (vr : ValidationResultObj)
    (api : ApiResult) :
    ((saveCompleteValidation db (some .runHeader) vr api).1 = db) ∧
    (api.expectationResults ≠ [] →
      (saveCompleteValidation db (some .expectationRows) vr api).1
        = { db with
              runs := db.runs ++ [mkRunRow vr api]
              nextRunId := db.nextRunId + 1 } ∧
      ∃ e, (saveCompleteValidation db (some .expectationRows) vr api).2
        = .error e) ∧
    ((saveCompleteValidation db (some .ruleWrites) vr api).1
      = { db with
            runs := db.runs ++ [mkRunRow vr api]
            expRows := db.expRows
              ++ api.expectationResults.map (fun s => ⟨db.nextRunId, s⟩)
            nextRunId := db.nextRunId + 1 }) ∧
    (∀ failAt, (validateSingleSave db failAt vr api).2.1 = vr) := by
  refine ⟨?_, ?_, ?_, ?_⟩
  · simp [saveCompleteValidation, saveValidationRun]
  · intro hne
    have hempty : api.expectationResults.isEmpty = false := by
      simpa [List.isEmpty_iff] using hne
    constructor
    · simp [saveCompleteValidation, saveValidationRun, saveExpectationResults, hempty]
    · exact ⟨"Error saving expectation results", by
        simp [saveCompleteValidation, saveValidationRun, saveExpectationResults, hempty]⟩
  · by_cases hempty : api.expectationResults.isEmpty
    · have hnil : api.expectationResults = [] := List.isEmpty_iff.mp hempty
      simp [saveCompleteValidation, saveValidationRun, saveExpectationResults,
        saveRulesApplied, hempty, hnil]
    · simp [saveCompleteValidation, saveValidationRun, saveExpectationResults,
        saveRulesApplied, hempty]
  · intro failAt
    cases hres : saveCompleteValidation db failAt vr api with
    | mk db1 outcome => cases outcome <;> simp [validateSingleSave, hres]

/-- Witness for the amended C6 at concrete inputs. -/
theorem persistence_commits_per_write_witness :
    ((saveCompleteValidation db0 (some .runHeader) vrC6 apiC6).1 = db0) ∧
    (validateSingleSave db0 (some .expectationRows) vrC6 apiC6).2.1 = vrC6 :=
  ⟨(persistence_commits_per_write db0 vrC6 apiC6).1,
   (persistence_commits_per_write db0 vrC6 apiC6).2.2.2 (some .expectationRows)⟩

/-- Concrete 200-response body for the C7 counterexample. -/
def apiC7 : ApiResult :=
  { success := true
    totalExpectations := 1
    successfulExpectations := 1
    failedExpectations := 0
    expectationResults := [true]
    hasResults := true
    apiUrl := "http://127.0.0.1:5006/api/v1/rules/validate/stock/XHKG" }

/-- C7 counterexample: against an API answering 503, 503, then 200, the
client issues exactly **one** request (not three) and raises the HTTP 503
error instead of returning the 200 body; the per-attempt timeout defaults
to 30 s, not 120 s. -/
theorem retry_policy_counterexample :
    (validateExchange [.response 503 none, .response 503 none,
        .response 200 (some apiC7)] validateExchangeDefaultTimeout).1 = 1 ∧
    (validateExchange [.response 503 none, .response 503 none,
        .response 200 (some apiC7)] validateExchangeDefaultTimeout).2
      = .error (.httpError 503) ∧
    validateExchangeDefaultTimeout = 30 :=
  ⟨rfl, rfl, rfl⟩

/-- C7 (amended): every `validate_exchange` call issues exactly one HTTP
request — the client has no retry loop and no backoff — and any retryable
condition (4xx/5xx status such as 429/500/502/503/504, connection error,
timeout) surfaces immediately as an exception from that single request. -/
theorem client_single_attempt (server : List HttpOutcome) (timeout : Nat) :
    (validateExchange server timeout).1 = 1 ∧
    (∀ statusCode jsonBody rest,
      server = .response statusCode jsonBody :: rest → 400 ≤ statusCode →
      (validateExchange server timeout).2 = .error (.httpError statusCode)) ∧
    (∀ rest, server = .connectionFailure :: rest →
      (validateExchange server timeout).2 = .error .connectionError) ∧
    (∀ rest, server = .timedOut :: rest →
      (validateExchange server timeout).2 = .error (.timeoutError timeout)) := by
  refine ⟨?_, ?_, ?_, ?_⟩
  · cases server with
    | nil => rfl
    | cons h rest =>
      cases h with
      | response statusCode jsonBody =>
        by_cases hs : 400 ≤ statusCode
        · simp [validateExchange, hs]
        · cases jsonBody <;> simp [validateExchange, hs]
      | connectionFailure => rfl
      | timedOut => rfl
  · rintro statusCode jsonBody rest rfl hs
    simp [validateExchange, hs]
  · rintro rest rfl
    rfl
  · rintro rest rfl
    rfl

/-- Witness for the amended C7 at a concrete 503 response. -/
theorem client_single_attempt_witness :
    (validateExchange [.response 503 none] 30).1 = 1 ∧
    (validateExchange [.response 503 none] 30).2 = .error (.httpError 503) :=
  ⟨(client_single_attempt [.response 503 none] 30).1,
   (client_single_attempt [.response 503 none] 30).2.1 503 none [] rfl (by decide)⟩

/-! ## C8 — the CSV data loader (`server/loaders/csv_loader.py`) -/

/-- What `pd.read_csv` makes of a file on disk: a successfully parsed
frame with a number of data rows, a completely empty file
(`EmptyDataError`), malformed CSV (`ParserError`), or some other backend
failure. -/
inductive CsvContent
  | frame (rowCount : Nat)
  | emptyFile
  | malformed
  | backendFailure
deriving DecidableEq, Repr

/-- A loaded DataFrame, by its row count (all the claim depends on). -/
structure DataFrame where
  rowCount : Nat
deriving DecidableEq, Repr

/-- The exceptions `CSVDataLoader._read` raises. -/
inductive CsvErr
  | fileNotFound (path : String)
  | emptyDataError (path : String)
  | parserError (path : String)
  | otherError (path : String)
deriving DecidableEq, Repr

/-- `CSVDataLoader._read`: missing file → `FileNotFoundError`; parse
errors re-raised; and — per its own docstring "file exists but contains no
data" — a frame that parsed successfully but is empty (`if df.empty`)
raises `EmptyDataError` rather than returning a zero-row dataset.  The
filesystem is a map from (resolved) paths to contents. -/
def readCsv (fs : String → Option CsvContent) (filePath : String) :
    Except CsvErr DataFrame :=
  match fs filePath with
  | none => .error (.fileNotFound filePath)
  | some .emptyFile => .error (.emptyDataError filePath)
  | some .malformed => .error (.parserError filePath)
  | some .backendFailure => .error (.otherError filePath)
  | some (.frame rowCount) =>
    if rowCount == 0 then .error (.emptyDataError filePath)
    else .ok { rowCount := rowCount }

/-- One cache entry: the frame and its monotonic load instant. -/
structure CsvCacheEntry where
  df : DataFrame
  loadedAt : Nat
deriving DecidableEq, Repr

/-- The loader's mutable state: the path-keyed cache and the TTL.  Python
dictionary assignment replaces the key, modelled by prepending after
removing the old binding. -/
structure CsvLoaderState where
  cache : List (String × CsvCacheEntry)
  cacheTtl : Nat
deriving DecidableEq, Repr

/-- `CSVDataLoader.load` (path resolution elided: filenames stand for
their resolved paths): a cache entry younger than the TTL is returned;
otherwise `_read` runs, a success is cached, and errors propagate. -/
def csvLoad (fs : String → Option CsvContent) (st : CsvLoaderState) (now : Nat)
    (filename : String) : CsvLoaderState × Except CsvErr DataFrame :=
  let cached : Option DataFrame :=
    match st.cache.lookup filename with
    | some entry => if now - entry.loadedAt < st.cacheTtl then some entry.df else none
    | none => none
  match cached with
  | some df => (st, .ok df)
  | none =>
    match readCsv fs filename with
    | .error e => (st, .error e)
    | .ok df =>
      (({ st with cache := (filename, ⟨df, now⟩)
            :: st.cache.filter (fun e => !(e.1 == filename)) } : CsvLoaderState),
       .ok df)

/-- C8 counterexample: a file that exists and parses successfully but has
zero rows does **not** load as an empty dataset — `load` raises
`EmptyDataError` ("CSV file is empty"). -/
theorem zero_rows_counterexample :
    (csvLoad (fun p => if p == "xhkg.csv" then some (.frame 0) else none)
        { cache := [], cacheTtl := 300 } 0 "xhkg.csv").2
      = .error (.emptyDataError "xhkg.csv") :=
  rfl

/-- C8 (amended): on a cold cache, `load` returns exactly what `_read`
does; a source that exists and parses succeeds iff it has at least one
row — zero rows raise `EmptyDataError` — while an absent file raises
`FileNotFoundError`, malformed input raises `ParserError`, and any other
backend failure raises the unexpected-error exception. -/
theorem csv_load_error_taxonomy (fs : String → Option CsvContent)
    (ttl now : Nat) (filename : String) :
    ((csvLoad fs { cache := [], cacheTtl := ttl } now filename).2
      = readCsv fs filename) ∧
    (∀ n, fs filename = some (.frame n) →
      readCsv fs filename
        = if n = 0 then .error (.emptyDataError filename)
          else .ok { rowCount := n }) ∧
    (fs filename = none →
      readCsv fs filename = .error (.fileNotFound filename)) ∧
    (fs filename = some .malformed →
      readCsv fs filename = .error (.parserError filename)) ∧
    (fs filename = some .backendFailure →
      readCsv fs filename = .error (.otherError filename)) := by
  refine ⟨?_, ?_, ?_, ?_, ?_⟩
  · cases hread : readCsv fs filename with
    | error e => simp [csvLoad, hread]
    | ok df => simp [csvLoad, hread]
  · intro n hn
    by_cases h0 : n = 0 <;> simp [readCsv, hn, h0]
  · intro hn; simp [readCsv, hn]
  · intro hn; simp [readCsv, hn]
  · intro hn; simp [readCsv, hn]

/-- Witness for the amended C8 at a concrete filesystem. -/
theorem csv_load_error_taxonomy_witness :
    ((csvLoad (fun p => if p == "a.csv" then some (.frame 3) else none)
        { cache := [], cacheTtl := 300 } 0 "a.csv").2
      = readCsv (fun p => if p == "a.csv" then some (.frame 3) else none) "a.csv") ∧
    readCsv (fun p => if p == "a.csv" then some (.frame 3) else none) "a.csv"
      = .ok { rowCount := 3 } :=
  ⟨(csv_load_error_taxonomy (fun p => if p == "a.csv" then some (.frame 3) else none)
      300 0 "a.csv").1,
   by
    have h := (csv_load_error_taxonomy
        (fun p => if p == "a.csv" then some (.frame 3) else none) 300 0 "a.csv").2.1
        3 (by rfl)
    simpa using h⟩

/-! ## C9 — batch CLI exit codes (`generator/src/cli/cli.py`) -/

/-- The keyword parameters `BatchValidator.validate_region` accepts
(`self` aside): its signature is
`validate_region(self, region, custom_rule_names=None, verbose=True)`. -/
def validateRegionParams : List String := ["region", "custom_rule_names", "verbose"]

/-- The keyword arguments `ValidationCLI.run_validation` passes:
`validator.validate_region(region=…, custom_rule_names=…, verbose=True,
max_workers=max_workers)`. -/
def runValidationCallKwargs : List String :=
  ["region", "custom_rule_names", "verbose", "max_workers"]

/-- Python call semantics: the call binds only when every keyword argument
names a parameter; otherwise `TypeError` is raised before the body runs. -/
def callBindsOk (params args : List String) : Bool :=
  args.all (fun a => params.contains a)

/-- `ValidationCLI.run_validation` reduced to its exit-code behaviour.
`regionOutcomes` gives each region's `(successful, failed)` tally (the
summary a bound call would return).  A `KeyboardInterrupt` exits 130; a
`TypeError` from the `validate_region` call — raised on the first region
because of the kwarg binding — lands in the `except Exception` handler and
exits 1; otherwise the code exits 1 when any validation failed across all
regions and 0 when none did. -/
def runValidationExitCode (regions : List String)
    (regionOutcomes : String → Nat × Nat) (interrupted : Bool) : Nat :=
  if interrupted then 130
  else if !regions.isEmpty
      && !callBindsOk validateRegionParams runValidationCallKwargs then 1
  else
    let totalFailed := (regions.map (fun r => (regionOutcomes r).2)).sum
    if totalFailed > 0 then 1 else 0

/-- C9: the CLI can never exit 0 — `run_validation` passes the keyword
argument `max_workers` to `BatchValidator.validate_region`, whose
signature does not accept it, so the first region's call raises
`TypeError`, the `except Exception` handler fires, and the process exits
1 even when every validation passed. -/
theorem cli_exit_code_bug (regions : List String) (hne : regions ≠ [])
    (regionOutcomes : String → Nat × Nat)
    (hallpass : ∀ r ∈ regions, (regionOutcomes r).2 = 0) :
    callBindsOk validateRegionParams runValidationCallKwargs = false ∧
    runValidationExitCode regions regionOutcomes false = 1 := by
  refine ⟨by decide, ?_⟩
  have hbind : callBindsOk validateRegionParams runValidationCallKwargs = false := by
    decide
  have hempty : regions.isEmpty = false := by
    simpa [List.isEmpty_iff] using hne
  simp [runValidationExitCode, hbind, hempty]

/-- Witness for C9 at a concrete all-passing run over one region. -/
theorem cli_exit_code_bug_witness :
    (["apac"] ≠ ([] : List String) ∧ ((fun _ => (3, 0) : String → Nat × Nat) "apac").2 = 0) ∧
    (callBindsOk validateRegionParams runValidationCallKwargs = false ∧
      runValidationExitCode ["apac"] (fun _ => (3, 0)) false = 1) :=
  ⟨⟨by decide, rfl⟩,
   cli_exit_code_bug ["apac"] (by decide) (fun _ => (3, 0))
     (by intro r _; rfl)⟩

/-! ## C10 — all-exchange scans (`server/services/instrument_service.py`) -/

/-- A cell value in a loaded frame: a string or a pandas NaN. -/
inductive PyVal
  | str (s : String)
  | nan
deriving DecidableEq, Repr

/-- A row of a loaded frame as a column→value record. -/
abbrev RawRow := List (String × PyVal)

/-- A loaded frame: a list of rows. -/
abbrev PyFrame := List RawRow

/-- `InstrumentService._clean_nan_values` on one record: NaN cells become
null (`none`), everything else is kept. -/
def cleanNanRow (row : RawRow) : List (String × Option String) :=
  row.map (fun kv => (kv.1,
    match kv.2 with
    | .str s => some s
    | .nan => none))

/-- The instrument service as the scan sees it: the configured exchange
codes (`ALL_EXCHANGES`) and `load_exchange_data`, which either returns a
frame or raises. -/
structure InstrumentServiceEnv where
  allExchanges : List String
  loadData : String → Except String PyFrame

/-- The value `_search_all_exchanges` returns: a (possibly empty) record
list when `multiple`, otherwise the first match or `None`. -/
inductive SearchResult
  | many (records : List (List (String × Option String)))
  | one (record : Option (List (String × Option String)))
deriving DecidableEq, Repr

/-- The scan loop of `_search_all_exchanges`: each exchange's load+match is
wrapped in `try … except Exception: continue`, so a failing dataset is
silently skipped; a non-empty match either extends the accumulator
(`multiple`) or returns its first cleaned record immediately. -/
def searchLoop (env : InstrumentServiceEnv) (matchFunc : PyFrame → PyFrame)
    (multiple : Bool) :
    List String → List (List (String × Option String)) → SearchResult
  | [], acc => if multiple then .many acc else .one none
  | ex :: rest, acc =>
    match env.loadData ex with
    | .error _ => searchLoop env matchFunc multiple rest acc
    | .ok df =>
      let matchedRows := matchFunc df
      if matchedRows.isEmpty then searchLoop env matchFunc multiple rest acc
      else
        let cleaned := matchedRows.map cleanNanRow
        if multiple then searchLoop env matchFunc multiple rest (acc ++ cleaned)
        else .one cleaned.head?

/-- `InstrumentService._search_all_exchanges`: an empty exchange map is the
only error (`ValueError` for database loaders); otherwise the loop runs
and always produces a value. -/
def searchAllExchanges (env : InstrumentServiceEnv) (matchFunc : PyFrame → PyFrame)
    (multiple : Bool) : Except String SearchResult :=
  if env.allExchanges.isEmpty then
    .error "Cannot search all exchanges: exchange parameter is required for database loaders"
  else
    .ok (searchLoop env matchFunc multiple env.allExchanges [])

/-- The row predicate of `find_by_ric`: `df[df["RIC"] == ric]` (a NaN cell
compares unequal, as in pandas). -/
def ricMatches (ric : String) (df : PyFrame) : PyFrame :=
  df.filter (fun row => row.lookup "RIC" == some (.str ric))

/-- `InstrumentService.find_by_ric` without an exchange: scan every
configured exchange with the RIC predicate, collecting all matches. -/
def findByRicAll (env : InstrumentServiceEnv) (ric : String) :
    Except String SearchResult :=
  searchAllExchanges env (ricMatches ric) true

/-- The exchanges whose dataset loads successfully, in configuration
order. -/
def loadableExchanges (env : InstrumentServiceEnv) : List String :=
  env.allExchanges.filter (fun ex => (env.loadData ex).isOk)

theorem searchLoop_skips_failures (env : InstrumentServiceEnv)
    (matchFunc : PyFrame → PyFrame) (multiple : Bool) :
    ∀ (exchanges : List String) (acc : List (List (String × Option String))),
      searchLoop env matchFunc multiple exchanges acc
        = searchLoop env matchFunc multiple
            (exchanges.filter (fun ex => (env.loadData ex).isOk)) acc := by
  intro exchanges
  induction exchanges with
  | nil => intro acc; rfl
  | cons ex rest ih =>
    intro acc
    cases hload : env.loadData ex with
    | error e =>
      simp [searchLoop, hload, List.filter_cons, Except.isOk, Except.toBool, ih]
    | ok df =>
      by_cases hempty : (matchFunc df).isEmpty <;>
        simp [searchLoop, hload, List.filter_cons, Except.isOk, Except.toBool,
          hempty, ih]

/-- C10: a scan over all configured exchanges silently skips any exchange
whose dataset fails to load — the result equals the scan restricted to the
exchanges that load successfully, and the lookup returns a value (an empty
list or `None` included) rather than an error, even when some datasets are
unreachable; `find_by_ric` without an exchange is exactly such a scan with
the RIC predicate. -/
theorem search_all_skips_failing_exchanges (env : InstrumentServiceEnv)
    (matchFunc : PyFrame → PyFrame) (multiple : Bool) (ric : String)
    (hne : env.allExchanges ≠ []) :
    searchAllExchanges env matchFunc multiple
      = .ok (searchLoop env matchFunc multiple (loadableExchanges env) []) ∧
    findByRicAll env ric
      = .ok (searchLoop env (ricMatches ric) true (loadableExchanges env) []) := by
  have hempty : env.allExchanges.isEmpty = false := by
    simpa [List.isEmpty_iff] using hne
  constructor
  · simp [searchAllExchanges, hempty, loadableExchanges,
      searchLoop_skips_failures env matchFunc multiple env.allExchanges []]
  · simp [findByRicAll, searchAllExchanges, hempty, loadableExchanges,
      searchLoop_skips_failures env (ricMatches ric) true env.allExchanges []]

/-- Witness for C10: two configured exchanges, one of which fails to load;
the RIC lookup still returns (an empty record list), drawn from the
loadable exchange only. -/
def c10Env : InstrumentServiceEnv :=
  { allExchanges := ["XHKG", "XNSE"]
    loadData := fun ex =>
      if ex == "XHKG" then .ok [[("RIC", .str "0001.HK"), ("Sedol", .nan)]]
      else .error "dataset unreachable" }

theorem search_all_skips_failing_exchanges_witness :
    (["XHKG", "XNSE"] ≠ ([] : List String)) ∧
    findByRicAll c10Env "9999.HK"
      = .ok (searchLoop c10Env (ricMatches "9999.HK") true
          (loadableExchanges c10Env) []) ∧
    findByRicAll c10Env "9999.HK" = .ok (.many []) :=
  ⟨by decide,
   (search_all_skips_failing_exchanges c10Env (ricMatches "9999.HK") true
     "9999.HK" (by decide)).2,
   by rfl⟩

end DataExpectation
